import Mathlib

/-!
Verification of the VirtualroundPS expense-approval system against its
specification.  The repository ships a React frontend (pages and an axios
API client) and a README; the approval-workflow engine itself (Rule
Evaluator, Stage Tracker, Workflow Instance, Approval Coordinator) is not
present in the source tree, so those components are modelled here from the
specification text and the frontend pages are embedded from their source.
-/

namespace Workflow

/-- Modelled from the spec: a vote decision, `APPROVE` or `REJECT`
(§3 Vote).  The engine source is missing from the repository. -/
inductive Decision where
  | APPROVE
  | REJECT
deriving DecidableEq, Repr

/-- Modelled from the spec: the Rule Evaluator's result
(§4.1 `evaluate(RuleConfig, StageState) → {SATISFIED, UNSATISFIED,
INDETERMINATE}`). -/
inductive RuleResult where
  | SATISFIED
  | UNSATISFIED
  | INDETERMINATE
deriving DecidableEq, Repr

/-- Modelled from the spec: the tagged rule variant (§3 RuleConfig).
Thresholds are integer percentages `0..100`; approver ids are naturals. -/
inductive RuleConfig where
  | Percentage (threshold : Nat)
  | SpecificApprover (approverId : Nat)
  | Hybrid (threshold : Nat) (approverId : Nat)
deriving DecidableEq, Repr

/-- Number of APPROVE votes in a stage's vote list. -/
def approveCount (votes : List (Nat × Decision)) : Nat :=
  (votes.filter (fun v => v.2 == Decision.APPROVE)).length

/-- Number of REJECT votes in a stage's vote list. -/
def rejectCount (votes : List (Nat × Decision)) : Nat :=
  (votes.filter (fun v => v.2 == Decision.REJECT)).length

/-- Look up an approver's recorded vote in the stage's vote list. -/
def lookupVote (a : Nat) : List (Nat × Decision) → Option Decision
  | [] => none
  | (b, d) :: rest => if b = a then some d else lookupVote a rest

/-- Modelled from the spec: the Percentage rule (§4.1).  SATISFIED when
`approveCount / eligibleCount ≥ threshold/100`, i.e.
`threshold * n ≤ approveCount * 100`; UNSATISFIED when
`rejectCount > eligibleCount * (1 - threshold/100)`, i.e.
`(100 - threshold) * n < rejectCount * 100`; otherwise INDETERMINATE. -/
def evalPercentage (t : Nat) (n : Nat) (votes : List (Nat × Decision)) : RuleResult :=
  if t * n ≤ approveCount votes * 100 then RuleResult.SATISFIED
  else if (100 - t) * n < rejectCount votes * 100 then RuleResult.UNSATISFIED
  else RuleResult.INDETERMINATE

/-- Modelled from the spec: the SpecificApprover rule (§4.1).  SATISFIED
if that approver's vote is APPROVE, UNSATISFIED if REJECT, INDETERMINATE
when no vote yet. -/
def evalSpecific (a : Nat) (votes : List (Nat × Decision)) : RuleResult :=
  match lookupVote a votes with
  | some Decision.APPROVE => RuleResult.SATISFIED
  | some Decision.REJECT => RuleResult.UNSATISFIED
  | none => RuleResult.INDETERMINATE

/-- Modelled from the spec: the Hybrid combination (§4.1) — SATISFIED if
either sub-result is SATISFIED, UNSATISFIED if both are, else
INDETERMINATE. -/
def hybridCombine (p s : RuleResult) : RuleResult :=
  match p, s with
  | RuleResult.SATISFIED, _ => RuleResult.SATISFIED
  | _, RuleResult.SATISFIED => RuleResult.SATISFIED
  | RuleResult.UNSATISFIED, RuleResult.UNSATISFIED => RuleResult.UNSATISFIED
  | _, _ => RuleResult.INDETERMINATE

/-- Modelled from the spec: the Rule Evaluator dispatch (§4.1), one
evaluator per rule tag over the stage's eligible set and vote list. -/
def evalRule (rule : RuleConfig) (eligible : List Nat)
    (votes : List (Nat × Decision)) : RuleResult :=
  match rule with
  | RuleConfig.Percentage t => evalPercentage t eligible.length votes
  | RuleConfig.SpecificApprover a => evalSpecific a votes
  | RuleConfig.Hybrid t a =>
      hybridCombine (evalPercentage t eligible.length votes) (evalSpecific a votes)

/-- Ceiling of `x / 100`, used to state the `approveCount ≥ ceil(T×N)`
testable property (§8). -/
def ceilDiv100 (x : Nat) : Nat := (x + 99) / 100

/-- Modelled from the spec: per-stage status (§3 StageState). -/
inductive StageStatus where
  | PENDING
  | OPEN
  | SATISFIED
  | UNSATISFIED
deriving DecidableEq, Repr

/-- Modelled from the spec: a stage definition of a workflow template
(§3 WorkflowTemplate) — stage name, eligible approver ids, rule. -/
structure StageDefinition where
  name : String
  eligible : List Nat
  rule : RuleConfig
deriving DecidableEq, Repr

/-- Modelled from the spec: per-stage mutable state (§3 StageState) —
status plus the approver-to-vote mapping, as an association list. -/
structure StageState where
  status : StageStatus
  votes : List (Nat × Decision)
deriving DecidableEq, Repr

/-- A stage of a workflow instance: the snapshotted stage definition
paired with its mutable state (§3 WorkflowInstance snapshots its
template at creation). -/
structure Stage where
  sdef : StageDefinition
  state : StageState
deriving DecidableEq, Repr

/-- Modelled from the spec: overall outcome of an instance (§3). -/
inductive Outcome where
  | IN_PROGRESS
  | APPROVED
  | REJECTED
deriving DecidableEq, Repr

/-- Modelled from the spec: the Workflow Instance (§3) — claim id,
snapshotted stages, current stage index, overall outcome. -/
structure WorkflowInstance where
  claimId : Nat
  stages : List Stage
  currentStageIndex : Nat
  outcome : Outcome
deriving DecidableEq, Repr

/-- Modelled from the spec: the error taxonomy (§7). -/
inductive WfError where
  | NotEligible
  | StageClosed
  | WorkflowClosed
  | NotFound
deriving DecidableEq, Repr

/-- Insert or replace an approver's vote in the stage's vote list
(§3 Vote: at most one vote per approver per stage; a later vote
replaces the earlier one). -/
def upsertVote (a : Nat) (d : Decision) : List (Nat × Decision) → List (Nat × Decision)
  | [] => [(a, d)]
  | (b, e) :: rest =>
      if b = a then (a, d) :: rest else (b, e) :: upsertVote a d rest

/-- Stage status resulting from a rule evaluation (§4.2): SATISFIED and
UNSATISFIED are terminal, INDETERMINATE keeps the stage OPEN. -/
def statusAfter (r : RuleResult) : StageStatus :=
  match r with
  | RuleResult.SATISFIED => StageStatus.SATISFIED
  | RuleResult.UNSATISFIED => StageStatus.UNSATISFIED
  | RuleResult.INDETERMINATE => StageStatus.OPEN

/-- Modelled from the spec: the Stage Tracker's `recordVote` (§4.2) —
`NotEligible` if the approver is not in the stage's eligible set,
`StageClosed` if the stage is not OPEN, otherwise upsert the vote,
re-evaluate the rule and update the stage status.  An error commits no
state change (the input stage is returned unchanged by the caller). -/
def recordVote (sd : StageDefinition) (st : StageState) (a : Nat)
    (d : Decision) : Except WfError StageState :=
  if a ∈ sd.eligible then
    if st.status = StageStatus.OPEN then
      let votes := upsertVote a d st.votes
      Except.ok { status := statusAfter (evalRule sd.rule sd.eligible votes),
                  votes := votes }
    else Except.error WfError.StageClosed
  else Except.error WfError.NotEligible

/-- Positional lookup in a list (used for stage access so that all
index lemmas are proved here by induction). -/
def nth {α : Type} : List α → Nat → Option α
  | [], _ => none
  | x :: _, 0 => some x
  | _ :: xs, n + 1 => nth xs n

/-- Replace the element at an index, identity when out of range. -/
def setNth {α : Type} : List α → Nat → α → List α
  | [], _, _ => []
  | _ :: xs, 0, y => y :: xs
  | x :: xs, n + 1, y => x :: setNth xs n y

/-- Set a stage's status to OPEN at the given index (used when the
state machine advances to the next stage, §4.3). -/
def openAt : List Stage → Nat → List Stage
  | [], _ => []
  | s :: rest, 0 => { s with state := { s.state with status := StageStatus.OPEN } } :: rest
  | s :: rest, n + 1 => s :: openAt rest n

/-- A freshly created stage: PENDING, no votes (§4.3 on creation). -/
def initStage (sd : StageDefinition) : Stage :=
  { sdef := sd, state := { status := StageStatus.PENDING, votes := [] } }

/-- Modelled from the spec: instance construction (§4.3 on creation) —
stage 0 OPEN, all others PENDING, outcome IN_PROGRESS. -/
def mkInstance (cid : Nat) (tmpl : List StageDefinition) : WorkflowInstance :=
  { claimId := cid,
    stages := openAt (tmpl.map initStage) 0,
    currentStageIndex := 0,
    outcome := Outcome.IN_PROGRESS }

/-- Modelled from the spec: one vote applied to a Workflow Instance
(§4.3, §4.5 `castVote`).  Terminal instances reject the vote with
`WorkflowClosed`; otherwise the vote is recorded on the current stage
and the outcome re-derived: SATISFIED on the last stage approves the
claim, SATISFIED earlier opens the next stage, UNSATISFIED rejects the
claim immediately, INDETERMINATE leaves the stage OPEN.  An instance
whose current stage index is out of range (never produced by this
model) is treated as closed. -/
def castVote (inst : WorkflowInstance) (a : Nat) (d : Decision) :
    Except WfError WorkflowInstance :=
  match inst.outcome with
  | Outcome.APPROVED => Except.error WfError.WorkflowClosed
  | Outcome.REJECTED => Except.error WfError.WorkflowClosed
  | Outcome.IN_PROGRESS =>
    match nth inst.stages inst.currentStageIndex with
    | none => Except.error WfError.WorkflowClosed
    | some stg =>
      match recordVote stg.sdef stg.state a d with
      | Except.error e => Except.error e
      | Except.ok st2 =>
        let stages1 := setNth inst.stages inst.currentStageIndex { stg with state := st2 }
        match st2.status with
        | StageStatus.SATISFIED =>
            if inst.currentStageIndex + 1 = inst.stages.length then
              Except.ok { inst with stages := stages1, outcome := Outcome.APPROVED }
            else
              Except.ok { inst with
                stages := openAt stages1 (inst.currentStageIndex + 1),
                currentStageIndex := inst.currentStageIndex + 1 }
        | StageStatus.UNSATISFIED =>
            Except.ok { inst with stages := stages1, outcome := Outcome.REJECTED }
        | _ => Except.ok { inst with stages := stages1 }

/-- The persistence boundary (§6): instances stored by claim id, as an
association list. -/
abbrev Store : Type := List (Nat × WorkflowInstance)

/-- Read a WorkflowInstance by claim id (§6 persistence boundary). -/
def lookupStore (c : Nat) : Store → Option WorkflowInstance
  | [] => none
  | (k, inst) :: rest => if k = c then some inst else lookupStore c rest

/-- Write a WorkflowInstance by claim id, replacing any existing entry. -/
def updateStore (c : Nat) (inst : WorkflowInstance) : Store → Store
  | [] => [(c, inst)]
  | (k, old) :: rest =>
      if k = c then (c, inst) :: rest else (k, old) :: updateStore c inst rest

/-- Modelled from the spec: the template-registry validity contract
(§4.4) — a non-empty stage list whose every stage has a non-empty
eligible set. -/
def validTemplate (tmpl : List StageDefinition) : Bool :=
  !tmpl.isEmpty && tmpl.all (fun sd => !sd.eligible.isEmpty)

/-- Result of the coordinator's `submit` (§4.5): a fresh instance, the
original on a duplicate submission, or an invalid-template failure. -/
inductive SubmitResult where
  | created (inst : WorkflowInstance)
  | duplicate (orig : WorkflowInstance)
  | invalid
deriving DecidableEq, Repr

/-- Modelled from the spec: the Approval Coordinator's `submit` (§4.5)
— fails with `DuplicateSubmission` (returning the original instance,
§7) when an instance already exists for the claim id; otherwise
constructs the instance, persists it and returns it. -/
def submitC (store : Store) (c : Nat) (tmpl : List StageDefinition) :
    SubmitResult × Store :=
  match lookupStore c store with
  | some orig => (SubmitResult.duplicate orig, store)
  | none =>
      if validTemplate tmpl then
        (SubmitResult.created (mkInstance c tmpl),
         updateStore c (mkInstance c tmpl) store)
      else (SubmitResult.invalid, store)

/-- Modelled from the spec: the Approval Coordinator's `castVote`
(§4.5) — looks up the instance, applies the vote, persists the updated
instance; on any error the store is unchanged. -/
def castVoteC (store : Store) (c a : Nat) (d : Decision) :
    Except WfError WorkflowInstance × Store :=
  match lookupStore c store with
  | none => (Except.error WfError.NotFound, store)
  | some inst =>
      match castVote inst a d with
      | Except.error e => (Except.error e, store)
      | Except.ok inst2 => (Except.ok inst2, updateStore c inst2 store)

/-- Modelled from the spec: the Approval Coordinator's `status` (§4.5)
— a pure read of the latest persisted snapshot, `none` standing for
`NotFound`; the store is returned to make the absence of mutation
explicit. -/
def statusC (store : Store) (c : Nat) : Option WorkflowInstance × Store :=
  (lookupStore c store, store)

/-- Status of the stage at an index of an instance, if any. -/
def statusAt (inst : WorkflowInstance) (i : Nat) : Option StageStatus :=
  (nth inst.stages i).map (fun s => s.state.status)

/-- The status the sequential-gating invariant prescribes for stage `i`
when the current stage index is `cur` (§3 invariants): SATISFIED
before, OPEN at, PENDING after. -/
def expectedStatus (i cur : Nat) : StageStatus :=
  if i < cur then StageStatus.SATISFIED
  else if i = cur then StageStatus.OPEN
  else StageStatus.PENDING

/-- The sequential-gating invariant (§3): while the outcome is
IN_PROGRESS the current stage index is in range and every stage's
status is SATISFIED before it, OPEN at it, PENDING after it. -/
def seqInv (inst : WorkflowInstance) : Prop :=
  inst.outcome = Outcome.IN_PROGRESS →
    inst.currentStageIndex < inst.stages.length ∧
    ∀ i, i < inst.stages.length →
      statusAt inst i = some (expectedStatus i inst.currentStageIndex)

instance (inst : WorkflowInstance) : Decidable (seqInv inst) := by
  unfold seqInv
  infer_instance

/-- The "exactly one OPEN stage" phrasing of the invariant (§3): some
index `k` is OPEN, no other index is, all before `k` are SATISFIED and
all after are PENDING. -/
def onlyOneOpen (inst : WorkflowInstance) : Prop :=
  inst.outcome = Outcome.IN_PROGRESS →
    ∃ k, k < inst.stages.length ∧
      statusAt inst k = some StageStatus.OPEN ∧
      (∀ j, j < inst.stages.length → j ≠ k → statusAt inst j ≠ some StageStatus.OPEN) ∧
      (∀ j, j < k → statusAt inst j = some StageStatus.SATISFIED) ∧
      (∀ j, k < j → j < inst.stages.length → statusAt inst j = some StageStatus.PENDING)

end Workflow

namespace Frontend

/-- An approval item as consumed by `src/frontend/src/pages/Approvals.jsx`
(fields rendered by `ApprovalCard`: id, description, amount, user). -/
structure Approval where
  id : Nat
  description : String
  amount : Nat
  user : String
deriving DecidableEq, Repr

/-- From `src/frontend/src/pages/Approvals.jsx` `handleApprove`: after a
successful `approveApproval(id)` the state update is
`setApprovals(approvals.filter((app) => app.id !== id))`. -/
def handleApproveOk (approvals : List Approval) (i : Nat) : List Approval :=
  approvals.filter (fun app => app.id != i)

/-- From `src/frontend/src/pages/Approvals.jsx` `handleReject`: after a
successful `rejectApproval(id)` the state update is
`setApprovals(approvals.filter((app) => app.id !== id))`. -/
def handleRejectOk (approvals : List Approval) (i : Nat) : List Approval :=
  approvals.filter (fun app => app.id != i)

/-- An expense item as consumed by `src/frontend/src/pages/Expenses.jsx`
(fields rendered by `ExpenseCard`: description, amount, date, status). -/
structure Expense where
  id : Nat
  description : String
  amount : String
  date : String
  status : String
deriving DecidableEq, Repr

/-- The component state of `src/frontend/src/pages/Expenses.jsx`: the
expense list, the three form fields and the two message fields. -/
structure ExpensesState where
  expenses : List Expense
  description : String
  amount : String
  date : String
  error : String
  success : String
deriving DecidableEq, Repr

/-- From `src/frontend/src/pages/Expenses.jsx` `handleSubmit`: when
`createExpense` resolves with `newExpense` the list becomes
`[...expenses, newExpense]`, the success message is set and the three
form fields are cleared; when it throws, only the error message is
set.  The `Option` argument stands for the `createExpense` outcome. -/
def handleSubmit (s : ExpensesState) (result : Option Expense) : ExpensesState :=
  match result with
  | some newExpense =>
      { s with expenses := s.expenses ++ [newExpense],
               success := "Expense added successfully",
               description := "", amount := "", date := "" }
  | none => { s with error := "Failed to add expense" }

end Frontend

namespace Workflow

theorem lookupVote_upsert_self (a : Nat) (d : Decision)
    (vs : List (Nat × Decision)) :
    lookupVote a (upsertVote a d vs) = some d := by
  induction vs with
  | nil => simp [upsertVote, lookupVote]
  | cons p rest ih =>
    obtain ⟨b, e⟩ := p
    by_cases hb : b = a
    · simp [upsertVote, hb, lookupVote]
    · simp [upsertVote, hb, lookupVote, ih]

theorem lookupVote_upsert_ne (a b : Nat) (d : Decision)
    (vs : List (Nat × Decision)) (h : b ≠ a) :
    lookupVote b (upsertVote a d vs) = lookupVote b vs := by
  induction vs with
  | nil => simp [upsertVote, lookupVote, Ne.symm h]
  | cons p rest ih =>
    obtain ⟨c, e⟩ := p
    by_cases hc : c = a
    · subst hc
      simp [upsertVote, lookupVote, Ne.symm h]
    · simp [upsertVote, hc, lookupVote, ih]

theorem lookupStore_update_self (c : Nat) (inst : WorkflowInstance)
    (store : Store) :
    lookupStore c (updateStore c inst store) = some inst := by
  induction store with
  | nil => simp [updateStore, lookupStore]
  | cons p rest ih =>
    obtain ⟨k, v⟩ := p
    by_cases hk : k = c
    · simp [updateStore, hk, lookupStore]
    · simp [updateStore, hk, lookupStore, ih]

theorem length_setNth {α : Type} (l : List α) (n : Nat) (y : α) :
    (setNth l n y).length = l.length := by
  induction l generalizing n with
  | nil => simp [setNth]
  | cons x xs ih => cases n <;> simp [setNth, ih]

theorem nth_setNth_self {α : Type} (l : List α) (n : Nat) (y : α)
    (h : n < l.length) : nth (setNth l n y) n = some y := by
  induction l generalizing n with
  | nil => simp at h
  | cons x xs ih =>
    cases n with
    | zero => simp [setNth, nth]
    | succ m =>
      have h2 : m < xs.length := by simpa using h
      simp only [setNth, nth]
      exact ih m h2

theorem nth_setNth_ne {α : Type} (l : List α) (n m : Nat) (y : α)
    (h : m ≠ n) : nth (setNth l n y) m = nth l m := by
  induction l generalizing n m with
  | nil => simp [setNth]
  | cons x xs ih =>
    cases n with
    | zero =>
      cases m with
      | zero => exact absurd rfl h
      | succ k => simp [setNth, nth]
    | succ n2 =>
      cases m with
      | zero => simp [setNth, nth]
      | succ k =>
        simp only [setNth, nth]
        exact ih n2 k (fun he => h (by rw [he]))

theorem length_openAt (l : List Stage) (n : Nat) :
    (openAt l n).length = l.length := by
  induction l generalizing n with
  | nil => simp [openAt]
  | cons s rest ih => cases n <;> simp [openAt, ih]

theorem nth_openAt_self (l : List Stage) (n : Nat) :
    nth (openAt l n) n = (nth l n).map
      (fun s => { s with state := { s.state with status := StageStatus.OPEN } }) := by
  induction l generalizing n with
  | nil => simp [openAt, nth]
  | cons s rest ih =>
    cases n with
    | zero => simp [openAt, nth]
    | succ m =>
      simp only [openAt, nth]
      exact ih m

theorem nth_openAt_ne (l : List Stage) (n m : Nat) (h : m ≠ n) :
    nth (openAt l n) m = nth l m := by
  induction l generalizing n m with
  | nil => simp [openAt]
  | cons s rest ih =>
    cases n with
    | zero =>
      cases m with
      | zero => exact absurd rfl h
      | succ k => simp [openAt, nth]
    | succ n2 =>
      cases m with
      | zero => simp [openAt, nth]
      | succ k =>
        simp only [openAt, nth]
        exact ih n2 k (fun he => h (by rw [he]))

theorem nth_map {α β : Type} (f : α → β) (l : List α) (i : Nat) :
    nth (l.map f) i = (nth l i).map f := by
  induction l generalizing i with
  | nil => simp [nth]
  | cons x xs ih =>
    cases i with
    | zero => simp [nth]
    | succ m =>
      simp only [List.map, nth]
      exact ih m

theorem nth_lt_isSome {α : Type} (l : List α) (i : Nat) (h : i < l.length) :
    ∃ x, nth l i = some x := by
  induction l generalizing i with
  | nil => simp at h
  | cons x xs ih =>
    cases i with
    | zero => exact ⟨x, rfl⟩
    | succ m =>
      have h2 : m < xs.length := by simpa using h
      simpa [nth] using ih m h2

theorem lookupStore_eq_none_iff (c : Nat) (store : Store) :
    lookupStore c store = none ↔
      ∀ inst : WorkflowInstance, (c, inst) ∉ store := by
  induction store with
  | nil => simp [lookupStore]
  | cons p rest ih =>
    obtain ⟨k, v⟩ := p
    by_cases hk : k = c
    · subst hk
      constructor
      · intro h
        simp [lookupStore] at h
      · intro h
        exact absurd (List.mem_cons_self (k, v) rest) (h v)
    · simp only [lookupStore, if_neg hk, ih, List.mem_cons]
      constructor
      · intro h inst hmem
        rcases hmem with heq | hmem
        · exact hk (congrArg Prod.fst heq).symm
        · exact h inst hmem
      · intro h inst hmem
        exact h inst (Or.inr hmem)

end Workflow

/-- C8: for every claim id, `status` leaves the store unchanged, so
calling it any number of times with no intervening votes returns
identical results, and it returns NotFound (`none`) exactly when no
WorkflowInstance is stored for that claim id. -/
theorem statusC_idempotent_and_notFound (store : Workflow.Store) (c : Nat) :
    (Workflow.statusC store c).2 = store ∧
    (Workflow.statusC ((Workflow.statusC store c).2) c).1
      = (Workflow.statusC store c).1 ∧
    ((Workflow.statusC store c).1 = none ↔
      ∀ inst : Workflow.WorkflowInstance, (c, inst) ∉ store) := by
  refine ⟨rfl, rfl, ?_⟩
  exact Workflow.lookupStore_eq_none_iff c store

/-- C9: on the Approvals page, a successful approve and a successful
reject both update the displayed list to the previous list with every
element of the given id removed; the result is a sublist of the
previous list (all other elements unchanged, relative order kept). -/
theorem approvals_remove_by_id (l : List Frontend.Approval) (i : Nat) :
    Frontend.handleRejectOk l i = Frontend.handleApproveOk l i ∧
    List.Sublist (Frontend.handleApproveOk l i) l ∧
    ∀ a : Frontend.Approval,
      a ∈ Frontend.handleApproveOk l i ↔ (a ∈ l ∧ a.id ≠ i) := by
  refine ⟨rfl, List.filter_sublist l, ?_⟩
  intro a
  simp [Frontend.handleApproveOk, List.mem_filter]

/-- C10: on the Expenses page, a failed `createExpense` leaves the
expense list and the three form fields unchanged and only sets the
error message; a successful one appends the returned expense at the
end of the list and clears the three form fields. -/
theorem expenses_submit_effect (s : Frontend.ExpensesState)
    (e : Frontend.Expense) :
    ((Frontend.handleSubmit s none).expenses = s.expenses ∧
     (Frontend.handleSubmit s none).description = s.description ∧
     (Frontend.handleSubmit s none).amount = s.amount ∧
     (Frontend.handleSubmit s none).date = s.date ∧
     (Frontend.handleSubmit s none).success = s.success ∧
     (Frontend.handleSubmit s none).error = "Failed to add expense") ∧
    ((Frontend.handleSubmit s (some e)).expenses = s.expenses ++ [e] ∧
     (Frontend.handleSubmit s (some e)).description = "" ∧
     (Frontend.handleSubmit s (some e)).amount = "" ∧
     (Frontend.handleSubmit s (some e)).date = "" ∧
     (Frontend.handleSubmit s (some e)).success = "Expense added successfully") := by
  refine ⟨⟨rfl, rfl, rfl, rfl, rfl, rfl⟩, ⟨rfl, rfl, rfl, rfl, rfl⟩⟩

namespace Workflow

/-- C1: for a Percentage rule with threshold T over an eligible set of
size N, with at most one vote per eligible approver, the evaluator is
SATISFIED when `approveCount/N ≥ T/100`, UNSATISFIED when
`rejectCount > N·(1 − T/100)`, INDETERMINATE otherwise; and once
`approveCount ≥ ceil(T·N/100)` it is SATISFIED and never UNSATISFIED. -/
theorem percentage_rule_correct (t : Nat) (el : List Nat)
    (vs : List (Nat × Decision)) (ht : t ≤ 100)
    (hle : approveCount vs + rejectCount vs ≤ el.length) :
    (t * el.length ≤ approveCount vs * 100 →
       evalRule (RuleConfig.Percentage t) el vs = RuleResult.SATISFIED) ∧
    ((100 - t) * el.length < rejectCount vs * 100 →
       evalRule (RuleConfig.Percentage t) el vs = RuleResult.UNSATISFIED) ∧
    (approveCount vs * 100 < t * el.length →
       rejectCount vs * 100 ≤ (100 - t) * el.length →
       evalRule (RuleConfig.Percentage t) el vs = RuleResult.INDETERMINATE) ∧
    (ceilDiv100 (t * el.length) ≤ approveCount vs →
       evalRule (RuleConfig.Percentage t) el vs = RuleResult.SATISFIED ∧
       evalRule (RuleConfig.Percentage t) el vs ≠ RuleResult.UNSATISFIED) := by
  have hunf : evalRule (RuleConfig.Percentage t) el vs
      = evalPercentage t el.length vs := rfl
  have hkey : t * el.length + (100 - t) * el.length = 100 * el.length := by
    have h1 : t + (100 - t) = 100 := by omega
    calc t * el.length + (100 - t) * el.length
        = (t + (100 - t)) * el.length := (Nat.add_mul _ _ _).symm
      _ = 100 * el.length := by rw [h1]
  have hsat : ∀ h : t * el.length ≤ approveCount vs * 100,
      evalRule (RuleConfig.Percentage t) el vs = RuleResult.SATISFIED := by
    intro h
    rw [hunf]
    unfold evalPercentage
    rw [if_pos h]
  refine ⟨hsat, ?_, ?_, ?_⟩
  · intro hr
    have hna : ¬ (t * el.length ≤ approveCount vs * 100) := by
      intro hs
      have hle2 : (approveCount vs + rejectCount vs) * 100 ≤ el.length * 100 :=
        Nat.mul_le_mul_right _ hle
      generalize hx : t * el.length = x at hs hkey
      generalize hy : (100 - t) * el.length = y at hr hkey
      omega
    rw [hunf]
    unfold evalPercentage
    rw [if_neg hna, if_pos hr]
  · intro h1 h2
    rw [hunf]
    unfold evalPercentage
    rw [if_neg (Nat.not_le.mpr h1), if_neg (Nat.not_lt.mpr h2)]
  · intro hc
    have h : t * el.length ≤ approveCount vs * 100 := by
      unfold ceilDiv100 at hc
      generalize hx : t * el.length = x at hc ⊢
      omega
    have hS := hsat h
    refine ⟨hS, ?_⟩
    rw [hS]
    simp

/-- Witness for C1 at threshold 60, three eligible approvers and two
APPROVE votes (spec §8 Scenario A). -/
theorem percentage_rule_correct_witness :
    evalRule (RuleConfig.Percentage 60) [1, 2, 3]
      [(1, Decision.APPROVE), (2, Decision.APPROVE)] = RuleResult.SATISFIED :=
  (percentage_rule_correct 60 [1, 2, 3]
      [(1, Decision.APPROVE), (2, Decision.APPROVE)]
      (by decide) (by decide)).1 (by decide)

/-- C4: the Hybrid rule is SATISFIED iff either sub-rule is SATISFIED,
UNSATISFIED iff both sub-rules are UNSATISFIED, and INDETERMINATE in
every remaining case. -/
theorem hybrid_rule_or (t a : Nat) (el : List Nat)
    (vs : List (Nat × Decision)) :
    (evalRule (RuleConfig.Hybrid t a) el vs = RuleResult.SATISFIED ↔
       (evalRule (RuleConfig.Percentage t) el vs = RuleResult.SATISFIED ∨
        evalRule (RuleConfig.SpecificApprover a) el vs = RuleResult.SATISFIED)) ∧
    (evalRule (RuleConfig.Hybrid t a) el vs = RuleResult.UNSATISFIED ↔
       (evalRule (RuleConfig.Percentage t) el vs = RuleResult.UNSATISFIED ∧
        evalRule (RuleConfig.SpecificApprover a) el vs = RuleResult.UNSATISFIED)) ∧
    (evalRule (RuleConfig.Hybrid t a) el vs = RuleResult.INDETERMINATE ↔
       (¬(evalRule (RuleConfig.Percentage t) el vs = RuleResult.SATISFIED ∨
          evalRule (RuleConfig.SpecificApprover a) el vs = RuleResult.SATISFIED) ∧
        ¬(evalRule (RuleConfig.Percentage t) el vs = RuleResult.UNSATISFIED ∧
          evalRule (RuleConfig.SpecificApprover a) el vs = RuleResult.UNSATISFIED))) := by
  cases hp : evalPercentage t el.length vs <;>
    cases hs : evalSpecific a vs <;>
      simp [evalRule, hybridCombine, hp, hs]

/-- C5: `recordVote` fails with NotEligible for an approver outside the
stage's eligible set, fails with StageClosed when the stage is not
OPEN (no state change in either case, the stage being returned only on
success), and otherwise inserts or replaces that approver's vote and
invokes the Rule Evaluator on the result. -/
theorem recordVote_spec (sd : StageDefinition) (st : StageState) (a : Nat)
    (d : Decision) :
    (a ∉ sd.eligible → recordVote sd st a d = Except.error WfError.NotEligible) ∧
    (a ∈ sd.eligible → st.status ≠ StageStatus.OPEN →
       recordVote sd st a d = Except.error WfError.StageClosed) ∧
    (a ∈ sd.eligible → st.status = StageStatus.OPEN →
       recordVote sd st a d = Except.ok
         { status := statusAfter
             (evalRule sd.rule sd.eligible (upsertVote a d st.votes)),
           votes := upsertVote a d st.votes } ∧
       lookupVote a (upsertVote a d st.votes) = some d ∧
       ∀ b, b ≠ a →
         lookupVote b (upsertVote a d st.votes) = lookupVote b st.votes) := by
  refine ⟨?_, ?_, ?_⟩
  · intro h
    simp [recordVote, h]
  · intro h1 h2
    simp [recordVote, h1, h2]
  · intro h1 h2
    refine ⟨by simp [recordVote, h1, h2], lookupVote_upsert_self a d st.votes,
      fun b hb => lookupVote_upsert_ne a b d st.votes hb⟩

/-- Witness for C5: the single eligible approver votes APPROVE on an
OPEN SpecificApprover stage. -/
theorem recordVote_spec_witness :
    recordVote ⟨"s", [7], RuleConfig.SpecificApprover 7⟩
        ⟨StageStatus.OPEN, []⟩ 7 Decision.APPROVE =
      Except.ok
        { status := statusAfter (evalRule (RuleConfig.SpecificApprover 7) [7]
            (upsertVote 7 Decision.APPROVE [])),
          votes := upsertVote 7 Decision.APPROVE [] } :=
  ((recordVote_spec ⟨"s", [7], RuleConfig.SpecificApprover 7⟩
      ⟨StageStatus.OPEN, []⟩ 7 Decision.APPROVE).2.2 (by decide) rfl).1

/-- C3: once a stored instance's outcome is APPROVED or REJECTED, any
`castVote` against its claim id fails with WorkflowClosed and the
store is returned unchanged. -/
theorem terminal_instances_immutable (store : Store) (c a : Nat)
    (d : Decision) (inst : WorkflowInstance)
    (hlk : lookupStore c store = some inst)
    (hterm : inst.outcome = Outcome.APPROVED ∨ inst.outcome = Outcome.REJECTED) :
    castVoteC store c a d = (Except.error WfError.WorkflowClosed, store) := by
  have hcv : castVote inst a d = Except.error WfError.WorkflowClosed := by
    rcases hterm with h | h <;> simp [castVote, h]
  simp [castVoteC, hlk, hcv]

/-- Witness for C3: a one-entry store holding an APPROVED instance. -/
theorem terminal_instances_immutable_witness :
    castVoteC [(1, (⟨1, [], 0, Outcome.APPROVED⟩ : WorkflowInstance))]
        1 7 Decision.APPROVE =
      (Except.error WfError.WorkflowClosed,
       [(1, (⟨1, [], 0, Outcome.APPROVED⟩ : WorkflowInstance))]) :=
  terminal_instances_immutable _ 1 7 Decision.APPROVE
    ⟨1, [], 0, Outcome.APPROVED⟩ (by decide) (Or.inl rfl)

/-- C6: `submit` fails with DuplicateSubmission — returning the
original instance and leaving the store unchanged — when an instance
already exists for the claim id; otherwise (for a valid template) it
constructs the instance, persists it and returns it, and the persisted
entry is readable back. -/
theorem submit_spec (store : Store) (c : Nat)
    (tmpl : List StageDefinition) :
    (∀ orig, lookupStore c store = some orig →
       submitC store c tmpl = (SubmitResult.duplicate orig, store)) ∧
    (lookupStore c store = none → validTemplate tmpl = true →
       submitC store c tmpl =
         (SubmitResult.created (mkInstance c tmpl),
          updateStore c (mkInstance c tmpl) store) ∧
       lookupStore c (updateStore c (mkInstance c tmpl) store) =
         some (mkInstance c tmpl)) := by
  constructor
  · intro orig hlk
    simp [submitC, hlk]
  · intro hnone hval
    exact ⟨by simp [submitC, hnone, hval],
      lookupStore_update_self c (mkInstance c tmpl) store⟩

/-- Witness for C6: a fresh submission into the empty store. -/
theorem submit_spec_witness :
    submitC [] 1 [⟨"s", [7], RuleConfig.SpecificApprover 7⟩] =
      (SubmitResult.created
        (mkInstance 1 [⟨"s", [7], RuleConfig.SpecificApprover 7⟩]),
       updateStore 1 (mkInstance 1 [⟨"s", [7], RuleConfig.SpecificApprover 7⟩]) []) :=
  ((submit_spec [] 1 [⟨"s", [7], RuleConfig.SpecificApprover 7⟩]).2
    rfl (by decide)).1

end Workflow

namespace Workflow

theorem recordVote_ok_elim (sd : StageDefinition) (st : StageState) (a : Nat)
    (d : Decision) (st2 : StageState)
    (h : recordVote sd st a d = Except.ok st2) :
    a ∈ sd.eligible ∧ st.status = StageStatus.OPEN ∧
    st2 = { status := statusAfter
              (evalRule sd.rule sd.eligible (upsertVote a d st.votes)),
            votes := upsertVote a d st.votes } := by
  by_cases h1 : a ∈ sd.eligible
  · by_cases h2 : st.status = StageStatus.OPEN
    · refine ⟨h1, h2, ?_⟩
      simp [recordVote, h1, h2] at h
      exact h.symm
    · simp [recordVote, h1, h2] at h
  · simp [recordVote, h1] at h

theorem seqInv_mkInstance (cid : Nat) (tmpl : List StageDefinition)
    (h : tmpl ≠ []) : seqInv (mkInstance cid tmpl) := by
  intro _
  have hpos : 0 < tmpl.length := List.length_pos.mpr h
  constructor
  · simp only [mkInstance, length_openAt, List.length_map]
    exact hpos
  · intro i hi
    simp only [mkInstance, length_openAt, List.length_map] at hi
    simp only [statusAt, mkInstance]
    cases i with
    | zero =>
      rw [nth_openAt_self, nth_map]
      obtain ⟨sd, hsd⟩ := nth_lt_isSome tmpl 0 hpos
      rw [hsd]
      simp [initStage, expectedStatus]
    | succ m =>
      rw [nth_openAt_ne _ _ _ (by omega), nth_map]
      obtain ⟨sd, hsd⟩ := nth_lt_isSome tmpl (m + 1) hi
      rw [hsd]
      simp [initStage, expectedStatus]

theorem seqInv_onlyOneOpen (inst : WorkflowInstance) (h : seqInv inst) :
    onlyOneOpen inst := by
  intro hin
  obtain ⟨hlt, hall⟩ := h hin
  refine ⟨inst.currentStageIndex, hlt, ?_, ?_, ?_, ?_⟩
  · have h1 := hall _ hlt
    have hexp : expectedStatus inst.currentStageIndex inst.currentStageIndex
        = StageStatus.OPEN := by
      unfold expectedStatus
      rw [if_neg (by omega), if_pos rfl]
    rw [hexp] at h1
    exact h1
  · intro j hj hne
    have h1 := hall j hj
    rw [h1]
    by_cases h2 : j < inst.currentStageIndex
    · simp [expectedStatus, h2]
    · simp [expectedStatus, h2, hne]
  · intro j hj
    have h1 := hall j (lt_trans hj hlt)
    rw [h1]
    simp [expectedStatus, hj]
  · intro j hj hjlen
    have h1 := hall j hjlen
    rw [h1]
    have h2 : ¬ j < inst.currentStageIndex := by omega
    have h3 : j ≠ inst.currentStageIndex := by omega
    simp [expectedStatus, h2, h3]

theorem seqInv_castVote (inst : WorkflowInstance) (a : Nat) (d : Decision)
    (inst2 : WorkflowInstance) (hinv : seqInv inst)
    (hok : castVote inst a d = Except.ok inst2) : seqInv inst2 := by
  cases hout : inst.outcome with
  | APPROVED => simp [castVote, hout] at hok
  | REJECTED => simp [castVote, hout] at hok
  | IN_PROGRESS =>
  obtain ⟨hlt, hall⟩ := hinv hout
  cases hstg : nth inst.stages inst.currentStageIndex with
  | none => simp [castVote, hout, hstg] at hok
  | some stg =>
  cases hrv : recordVote stg.sdef stg.state a d with
  | error e => simp [castVote, hout, hstg, hrv] at hok
  | ok st2 =>
  obtain ⟨hel, hopen, hst2⟩ := recordVote_ok_elim _ _ _ _ _ hrv
  have hnp : st2.status ≠ StageStatus.PENDING := by
    rw [hst2]
    cases evalRule stg.sdef.rule stg.sdef.eligible (upsertVote a d stg.state.votes) <;>
      simp [statusAfter]
  cases hs2 : st2.status with
  | PENDING => exact absurd hs2 hnp
  | UNSATISFIED =>
    have heq : inst2 = { inst with
        stages := setNth inst.stages inst.currentStageIndex { stg with state := st2 },
        outcome := Outcome.REJECTED } := by
      simp [castVote, hout, hstg, hrv, hs2] at hok
      exact hok.symm
    rw [heq]
    intro hip
    simp at hip
  | SATISFIED =>
    by_cases hlast : inst.currentStageIndex + 1 = inst.stages.length
    · have heq : inst2 = { inst with
          stages := setNth inst.stages inst.currentStageIndex { stg with state := st2 },
          outcome := Outcome.APPROVED } := by
        simp [castVote, hout, hstg, hrv, hs2] at hok
        rw [if_pos hlast] at hok
        exact (Except.ok.inj hok).symm
      rw [heq]
      intro hip
      simp at hip
    · have heq : inst2 = { inst with
          stages := openAt
            (setNth inst.stages inst.currentStageIndex { stg with state := st2 })
            (inst.currentStageIndex + 1),
          currentStageIndex := inst.currentStageIndex + 1,
          outcome := Outcome.IN_PROGRESS } := by
        simp [castVote, hout, hstg, hrv, hs2] at hok
        rw [if_neg hlast] at hok
        exact (Except.ok.inj hok).symm
      rw [heq]
      intro _
      refine ⟨?_, ?_⟩
      · simp only [length_openAt, length_setNth]
        omega
      · intro i hi
        simp only [length_openAt, length_setNth] at hi
        simp only [statusAt]
        by_cases hi1 : i = inst.currentStageIndex + 1
        · subst hi1
          rw [nth_openAt_self, nth_setNth_ne _ _ _ _ (by omega)]
          have h3 := hall (inst.currentStageIndex + 1) hi
          have hPEND : expectedStatus (inst.currentStageIndex + 1)
              inst.currentStageIndex = StageStatus.PENDING := by
            unfold expectedStatus
            rw [if_neg (by omega), if_neg (by omega)]
          rw [hPEND] at h3
          simp only [statusAt] at h3
          obtain ⟨s, hsome, hstat⟩ := Option.map_eq_some'.mp h3
          rw [hsome]
          have hexp : expectedStatus (inst.currentStageIndex + 1)
              (inst.currentStageIndex + 1) = StageStatus.OPEN := by
            unfold expectedStatus
            rw [if_neg (by omega), if_pos rfl]
          rw [hexp]
          simp
        · rw [nth_openAt_ne _ _ _ hi1]
          by_cases hi2 : i = inst.currentStageIndex
          · subst hi2
            rw [nth_setNth_self _ _ _ hlt]
            have hexp : expectedStatus inst.currentStageIndex
                (inst.currentStageIndex + 1) = StageStatus.SATISFIED := by
              unfold expectedStatus
              rw [if_pos (by omega)]
            rw [hexp]
            simp [hs2]
          · rw [nth_setNth_ne _ _ _ _ hi2]
            have h3 := hall i hi
            simp only [statusAt] at h3
            rw [h3]
            have hexp : expectedStatus i inst.currentStageIndex
                = expectedStatus i (inst.currentStageIndex + 1) := by
              unfold expectedStatus
              by_cases h4 : i < inst.currentStageIndex
              · rw [if_pos h4, if_pos (by omega)]
              · rw [if_neg h4, if_neg hi2, if_neg (by omega), if_neg hi1]
            rw [hexp]
  | OPEN =>
    have heq : inst2 = { inst with
        stages := setNth inst.stages inst.currentStageIndex { stg with state := st2 },
        outcome := Outcome.IN_PROGRESS } := by
      simp [castVote, hout, hstg, hrv, hs2] at hok
      exact hok.symm
    rw [heq]
    intro _
    refine ⟨?_, ?_⟩
    · simp only [length_setNth]
      exact hlt
    · intro i hi
      simp only [length_setNth] at hi
      simp only [statusAt]
      by_cases hi2 : i = inst.currentStageIndex
      · subst hi2
        rw [nth_setNth_self _ _ _ hlt]
        have hexp : expectedStatus inst.currentStageIndex inst.currentStageIndex
            = StageStatus.OPEN := by
          unfold expectedStatus
          rw [if_neg (by omega), if_pos rfl]
        rw [hexp]
        simp [hs2]
      · rw [nth_setNth_ne _ _ _ _ hi2]
        have h3 := hall i hi
        simp only [statusAt] at h3
        exact h3

end Workflow

namespace Workflow

/-- C2: on creation and after every successful `castVote`, while the
outcome is IN_PROGRESS the sequential-gating invariant holds: exactly
one StageState is OPEN (the current stage), every stage before it is
SATISFIED, and every stage after it is PENDING. -/
theorem castVote_sequential_invariant :
    (∀ cid tmpl, tmpl ≠ [] → seqInv (mkInstance cid tmpl)) ∧
    (∀ inst a d inst2, seqInv inst → castVote inst a d = Except.ok inst2 →
       seqInv inst2 ∧ onlyOneOpen inst2) := by
  constructor
  · exact seqInv_mkInstance
  · intro inst a d inst2 h1 h2
    have h3 := seqInv_castVote inst a d inst2 h1 h2
    exact ⟨h3, seqInv_onlyOneOpen inst2 h3⟩

/-- Witness for C2: a fresh two-stage instance and the instance after
its first stage's approver votes APPROVE (stage 1 becomes the unique
OPEN stage). -/
theorem castVote_sequential_invariant_witness :
    seqInv (mkInstance 5 [⟨"m", [1], RuleConfig.SpecificApprover 1⟩,
                          ⟨"f", [2], RuleConfig.SpecificApprover 2⟩]) ∧
    (seqInv
      { claimId := 5,
        stages := [{ sdef := ⟨"m", [1], RuleConfig.SpecificApprover 1⟩,
                     state := { status := StageStatus.SATISFIED,
                                votes := [(1, Decision.APPROVE)] } },
                   { sdef := ⟨"f", [2], RuleConfig.SpecificApprover 2⟩,
                     state := { status := StageStatus.OPEN, votes := [] } }],
        currentStageIndex := 1,
        outcome := Outcome.IN_PROGRESS } ∧
     onlyOneOpen
      { claimId := 5,
        stages := [{ sdef := ⟨"m", [1], RuleConfig.SpecificApprover 1⟩,
                     state := { status := StageStatus.SATISFIED,
                                votes := [(1, Decision.APPROVE)] } },
                   { sdef := ⟨"f", [2], RuleConfig.SpecificApprover 2⟩,
                     state := { status := StageStatus.OPEN, votes := [] } }],
        currentStageIndex := 1,
        outcome := Outcome.IN_PROGRESS }) :=
  ⟨castVote_sequential_invariant.1 5
      [⟨"m", [1], RuleConfig.SpecificApprover 1⟩,
       ⟨"f", [2], RuleConfig.SpecificApprover 2⟩] (by decide),
   castVote_sequential_invariant.2
      (mkInstance 5 [⟨"m", [1], RuleConfig.SpecificApprover 1⟩,
                     ⟨"f", [2], RuleConfig.SpecificApprover 2⟩])
      1 Decision.APPROVE
      { claimId := 5,
        stages := [{ sdef := ⟨"m", [1], RuleConfig.SpecificApprover 1⟩,
                     state := { status := StageStatus.SATISFIED,
                                votes := [(1, Decision.APPROVE)] } },
                   { sdef := ⟨"f", [2], RuleConfig.SpecificApprover 2⟩,
                     state := { status := StageStatus.OPEN, votes := [] } }],
        currentStageIndex := 1,
        outcome := Outcome.IN_PROGRESS }
      (castVote_sequential_invariant.1 5
        [⟨"m", [1], RuleConfig.SpecificApprover 1⟩,
         ⟨"f", [2], RuleConfig.SpecificApprover 2⟩] (by decide))
      rfl⟩

end Workflow
